import Mathlib

/-!
Verification development for JtlStatsProcessor.

The repository contains two Go program variants: `main.go` (root) and `golang/main.go`.
Both read a JMeter JTL CSV file through the external `jtl` library and format
per-group summary statistics as CSV rows.  This file shallowly embeds the
parts of the program the claims concern: the output-row construction
(`GenerateSummaryTextForColumnValue`, `GenerateSummaryOutputText`), the
command-line processing (`ProcessCommandLineOptions` of both variants, over a
model of Go's `flag` package), the timestamp files (`WriteTimestampFiles`),
and — modelled from the specification, since the `jtl` library itself is not
part of this repository — the ingestion, summarizer-accessor, and rate-engine
contracts.
-/

/-- Statistics block for one multiset of samples, as carried by the jtl
library's `SummaryStatistics` value and read field-by-field by the Go
formatting code (`Mean`, `Median`, `PopulationStandardDeviation`, `Minimum`,
`Maximum`, `ValueAt5thPercentile`, `ValueAt95thPercentile`).  Sample-derived
real quantities are modelled as rationals. -/
structure SummaryStatistics where
  Mean : ℚ
  Median : ℚ
  PopulationStandardDeviation : ℚ
  Minimum : ℚ
  Maximum : ℚ
  ValueAt5thPercentile : ℚ
  ValueAt95thPercentile : ℚ
  deriving DecidableEq, Repr

/-- Per-key summary as consumed by `GenerateSummaryTextForColumnValue`:
the key rendered by `KeyAsAString()`, the request counts, and the two
latency statistics blocks. -/
structure ColumnUniqueValueSummary where
  Key : String
  NumberOfMatchingRequests : Nat
  NumberOfSuccessfulRequests : Nat
  TimeToFirstByteStatistics : SummaryStatistics
  TimeToLastByteStatistics : SummaryStatistics
  deriving DecidableEq, Repr

/-- Aggregate summary as consumed by `GenerateSummaryOutputText` and
`WriteTimestampFiles`: counts, the two latency blocks, the overall TPS rate
and the first/last entry timestamps (unix epoch milliseconds). -/
structure AggregateSummary where
  NumberOfMatchingRequests : Nat
  NumberOfSuccessfulRequests : Nat
  TimeToFirstByteStatistics : SummaryStatistics
  TimeToLastByteStatistics : SummaryStatistics
  AverageTPSRate : ℚ
  TimestampOfFirstDataEntryAsUnixEpochMs : Nat
  TimestampOfLastDataEntryAsUnixEpochMs : Nat
  deriving DecidableEq, Repr

/-- One CSV cell of an output row, identified by the value the Go
`fmt.Sprintf` verb receives at that position: `str` for a `%s` argument,
`nat` for a `%d` argument, `num` for a `%0.2f` argument, `dash` for a
literal `-` in the format string.  The format strings in
`GenerateSummaryOutputText` and `GenerateSummaryTextForColumnValue` place
exactly one verb or literal dash between consecutive commas, so the CSV
columns of a row correspond positionally to this cell list. -/
inductive Cell where
  | str (s : String)
  | nat (n : Nat)
  | num (q : ℚ)
  | dash
  deriving DecidableEq, Repr

/-- Go unsigned subtraction `a - b` on `uint` (64-bit): the mathematical
difference reduced modulo 2^64. -/
def goUintSub (a b : Nat) : Nat :=
  (((a : Int) - (b : Int)) % (2 : Int) ^ 64).toNat

/-- Embeds `GenerateSummaryTextForColumnValue` (identical in both variants up
to the moving-TPS dashes, which the root variant never appends): the row for
one per-key summary.  The Go format string is
`"%s,%s,%d,%d,` fourteen `%0.2f,` then `-"`, with `",-,-,-,-,-,-,-"`
appended when `includeDashesForMovingTPS`; the argument list is the category
label, the key, the total count, the unsigned difference of total and
successful counts, then for each of TTFB and TTLB the fields
Mean, Mean, PopulationStandardDeviation, Minimum, Maximum,
ValueAt5thPercentile, ValueAt95thPercentile — the Mean field is passed for
both the Mean and the Median column. -/
def GenerateSummaryTextForColumnValue (s : ColumnUniqueValueSummary)
    (labelForCategory : String) (includeDashesForMovingTPS : Bool) : List Cell :=
  let ttfb := s.TimeToFirstByteStatistics
  let ttlb := s.TimeToLastByteStatistics
  [Cell.str labelForCategory, Cell.str s.Key,
   Cell.nat s.NumberOfMatchingRequests,
   Cell.nat (goUintSub s.NumberOfMatchingRequests s.NumberOfSuccessfulRequests),
   Cell.num ttfb.Mean, Cell.num ttfb.Mean, Cell.num ttfb.PopulationStandardDeviation,
   Cell.num ttfb.Minimum, Cell.num ttfb.Maximum,
   Cell.num ttfb.ValueAt5thPercentile, Cell.num ttfb.ValueAt95thPercentile,
   Cell.num ttlb.Mean, Cell.num ttlb.Mean, Cell.num ttlb.PopulationStandardDeviation,
   Cell.num ttlb.Minimum, Cell.num ttlb.Maximum,
   Cell.num ttlb.ValueAt5thPercentile, Cell.num ttlb.ValueAt95thPercentile,
   Cell.dash] ++
  (if includeDashesForMovingTPS then
    [Cell.dash, Cell.dash, Cell.dash, Cell.dash, Cell.dash, Cell.dash, Cell.dash]
   else [])

/-- Embeds the aggregate row written by `GenerateSummaryOutputText`: format
string `"Aggregate,,%d,%d,` fifteen `%0.2f"` with the last `%0.2f` receiving
`AverageTPSRate`, and, when `includeMovingTPS`, seven further `%0.2f` cells
receiving the moving-TPS summary statistics returned by
`SummaryForTheMetaColumn`.  As in the per-key rows, the Mean field is passed
for both the Mean and the Median column of each latency block. -/
def AggregateRowCells (aggregateStats : AggregateSummary)
    (movingTPSSummaryStats : SummaryStatistics) (includeMovingTPS : Bool) : List Cell :=
  let ttfb := aggregateStats.TimeToFirstByteStatistics
  let ttlb := aggregateStats.TimeToLastByteStatistics
  [Cell.str "Aggregate", Cell.str "",
   Cell.nat aggregateStats.NumberOfMatchingRequests,
   Cell.nat (goUintSub aggregateStats.NumberOfMatchingRequests
      aggregateStats.NumberOfSuccessfulRequests),
   Cell.num ttfb.Mean, Cell.num ttfb.Mean, Cell.num ttfb.PopulationStandardDeviation,
   Cell.num ttfb.Minimum, Cell.num ttfb.Maximum,
   Cell.num ttfb.ValueAt5thPercentile, Cell.num ttfb.ValueAt95thPercentile,
   Cell.num ttlb.Mean, Cell.num ttlb.Mean, Cell.num ttlb.PopulationStandardDeviation,
   Cell.num ttlb.Minimum, Cell.num ttlb.Maximum,
   Cell.num ttlb.ValueAt5thPercentile, Cell.num ttlb.ValueAt95thPercentile,
   Cell.num aggregateStats.AverageTPSRate] ++
  (if includeMovingTPS then
    [Cell.num movingTPSSummaryStats.Mean, Cell.num movingTPSSummaryStats.Median,
     Cell.num movingTPSSummaryStats.PopulationStandardDeviation,
     Cell.num movingTPSSummaryStats.Minimum, Cell.num movingTPSSummaryStats.Maximum,
     Cell.num movingTPSSummaryStats.ValueAt5thPercentile,
     Cell.num movingTPSSummaryStats.ValueAt95thPercentile]
   else [])

/-- Header columns written by `GenerateSummaryOutputText` in
`golang/main.go`: the fixed 19 column names, with the seven Moving TPS
column names appended exactly when `includeMovingTPS`. -/
def HeaderCells (includeMovingTPS : Bool) : List String :=
  ["Category", "Key", "Total Requests Made", "Failed Requests",
   "TTFB Mean", "TTFB Median", "TTFB Stdev", "TTFB Minimum", "TTFB Maximum",
   "TTFB 5th Percentile", "TTFB 95th Percentile",
   "TTLB Mean", "TTLB Median", "TTLB Stdev", "TTLB Minimum", "TTLB Maximum",
   "TTLB 5th Percentile", "TTLB 95th Percentile",
   "Overall TPS"] ++
  (if includeMovingTPS then
    ["Moving TPS Mean", "Moving TPS Median", "Moving TPS Stdev",
     "Moving TPS Minimum", "Moving TPS Maximum",
     "Moving TPS 5th Percentile", "Moving TPS 95th Percentile"]
   else [])

/-- Data rows produced by `GenerateSummaryOutputText` (the rows after the
header): the aggregate row, then one row per summary in each per-column
summary list, in the order method+uripath, responseCode, responseSizeInBytes,
requestBodyInBytes. -/
def GenerateSummaryOutputRows (aggregateStats : AggregateSummary)
    (movingTPSSummaryStats : SummaryStatistics)
    (statsByURLs statsByResponseCode statsByResponseSize statsByRequestSize :
      List ColumnUniqueValueSummary)
    (includeMovingTPS : Bool) : List (List Cell) :=
  AggregateRowCells aggregateStats movingTPSSummaryStats includeMovingTPS ::
    (statsByURLs.map
        (fun s => GenerateSummaryTextForColumnValue s "method+uripath" includeMovingTPS) ++
     statsByResponseCode.map
        (fun s => GenerateSummaryTextForColumnValue s "responseCode" includeMovingTPS) ++
     statsByResponseSize.map
        (fun s => GenerateSummaryTextForColumnValue s "responseSizeInBytes" includeMovingTPS) ++
     statsByRequestSize.map
        (fun s => GenerateSummaryTextForColumnValue s "requestBodyInBytes" includeMovingTPS))

/-- Modelled from the spec: the jtl library's `Column` enumeration is not in
this repository.  The JTL CSV format's fields include both a result label
(`label`, named `Column.ResultLabel` by the library) and a request URL
(`URL`, named `Column.RequestURL`): they are distinct columns, hence distinct
dimension identifiers of the summarizer. -/
inductive JtlColumn where
  | ResultLabel
  | RequestURL
  | ResponseCodeOrErrorMessage
  | RequestBodySizeInBytes
  | ResponseBytesReceived
  deriving DecidableEq, Repr

/-- Modelled from the spec: the jtl library's `MetaColumn` enumeration is not
in this repository.  The only meta-column the program uses is the moving
transactions-per-second meta-dimension. -/
inductive JtlMetaColumn where
  | MovingTransactionsPerSecond
  deriving DecidableEq, Repr

/-- Dimension identifier passed to
`PreComputeAggregateSummaryAndSummariesForColumns`: an ordinary column or a
meta-column. -/
inductive Dimension where
  | column (c : JtlColumn)
  | meta (m : JtlMetaColumn)
  deriving DecidableEq, Repr

/-- Dimensions `main` in `golang/main.go` passes to
`PreComputeAggregateSummaryAndSummariesForColumns` (`main.go` at the root
passes the same four columns and never the meta-column): RequestURL,
ResponseCodeOrErrorMessage, RequestBodySizeInBytes, ResponseBytesReceived,
plus the MovingTransactionsPerSecond meta-column exactly when the `-m` flag
was given. -/
def mainPreComputedDimensions (includeMovingTPSSummary : Bool) : List Dimension :=
  [Dimension.column JtlColumn.RequestURL,
   Dimension.column JtlColumn.ResponseCodeOrErrorMessage,
   Dimension.column JtlColumn.RequestBodySizeInBytes,
   Dimension.column JtlColumn.ResponseBytesReceived] ++
  (if includeMovingTPSSummary then
    [Dimension.meta JtlMetaColumn.MovingTransactionsPerSecond]
   else [])

/-- Modelled from the spec: the summarizer's accessor contract ("Accessors
fail with a 'not computed' condition if called before precompute has been
invoked for that dimension").  Given the set of dimensions precompute was
invoked for, `SummariesForTheColumn` succeeds exactly when the requested
column is among them. -/
def SummariesForTheColumn (precomputed : List Dimension) (c : JtlColumn) :
    Except String Unit :=
  if Dimension.column c ∈ precomputed then Except.ok ()
  else Except.error "summaries not computed for the column"

/-- Column dimensions whose summaries `GenerateSummaryOutputText` reads
through `SummariesForTheColumn`, in call order: ResultLabel,
ResponseCodeOrErrorMessage, ResponseBytesReceived, RequestBodySizeInBytes
(identical in both program variants). -/
def mainAccessedColumns : List JtlColumn :=
  [JtlColumn.ResultLabel, JtlColumn.ResponseCodeOrErrorMessage,
   JtlColumn.ResponseBytesReceived, JtlColumn.RequestBodySizeInBytes]

/-- Record model of one parsed JTL log entry (spec §3): timestamp in unix
epoch milliseconds, optional time-to-first-byte, time-to-last-byte, route
label, response outcome, request and response sizes, success flag. -/
structure Record where
  timestampMs : Nat
  timeToFirstByteMs : Option ℚ
  timeToLastByteMs : ℚ
  routeLabel : String
  responseOutcome : String
  requestBodyBytes : Nat
  responseBytes : Nat
  succeeded : Bool
  deriving DecidableEq, Repr

/-- Fold computing the minimum of a starting value and a list of naturals. -/
def natMinList (x : Nat) (l : List Nat) : Nat :=
  l.foldl Nat.min x

/-- Fold computing the maximum of a starting value and a list of naturals. -/
def natMaxList (x : Nat) (l : List Nat) : Nat :=
  l.foldl Nat.max x

/-- Timestamp of the first (earliest) data entry: the minimum of the records'
timestamps (0 for an empty record list). -/
def minTimestampMs : List Record → Nat
  | [] => 0
  | r :: rs => natMinList r.timestampMs (rs.map (fun x => x.timestampMs))

/-- Timestamp of the last (latest) data entry: the maximum of the records'
timestamps (0 for an empty record list). -/
def maxTimestampMs : List Record → Nat
  | [] => 0
  | r :: rs => natMaxList r.timestampMs (rs.map (fun x => x.timestampMs))

/-- Modelled from the spec: the rate engine's overall-rate computation is in
the jtl library, not in this repository.  Per §4.3 and §8: the count of all
valid records divided by the observed span in seconds, failing with an
explicitly signaled condition when the last timestamp equals the first
(fewer than two distinct timestamps). -/
def overallRate (records : List Record) : Except String ℚ :=
  if maxTimestampMs records = minTimestampMs records then
    Except.error "overall rate undefined: fewer than two distinct timestamps"
  else
    Except.ok ((records.length : ℚ) /
      (((maxTimestampMs records - minTimestampMs records : Nat) : ℚ) / 1000))

/-- Second bucket of one record: its timestamp in whole seconds (floor). -/
def bucketOf (r : Record) : Nat :=
  r.timestampMs / 1000

/-- First second of the observed span: `floor(minTimestampMs / 1000)`. -/
def startSec (records : List Record) : Nat :=
  minTimestampMs records / 1000

/-- Last second of the observed span: `floor(maxTimestampMs / 1000)`. -/
def endSec (records : List Record) : Nat :=
  maxTimestampMs records / 1000

/-- Modelled from the spec: the rate engine's time-bucket series is in the
jtl library, not in this repository.  Per §4.3: one count per integer second
from `startSec` to `endSec` inclusive, `count(s)` being the number of records
whose `floor(timestampMs/1000)` equals `s`, seconds with zero records
included. -/
def timeBucketSeries (records : List Record) : List Nat :=
  (List.range (endSec records - startSec records + 1)).map
    (fun i => records.countP (fun r => bucketOf r == startSec records + i))

/-- Rejected-row diagnostic (spec §3): the 1-based source line number of the
unparsable row (counting the header, so diagnostics match what a user sees in
an editor) and a human-readable reason.  Mirrors the jtl library's
`CsvDataRowError` with its `LineNumber` and `Error` fields as used by
`LogAnyRowsThatCannotBeProcessed`. -/
structure RejectedRow where
  sourceLineNumber : Nat
  reason : String
  deriving DecidableEq, Repr

/-- Accumulates the decimal value of a digit string: fails on the first
non-digit character. -/
def toNatAux : List Char → Nat → Option Nat
  | [], acc => some acc
  | c :: rest, acc =>
      let n := c.toNat
      if 48 ≤ n ∧ n ≤ 57 then toNatAux rest (acc * 10 + (n - 48)) else none

/-- Decimal parse of a string: some value when the string is a non-empty
sequence of digits, none otherwise. -/
def strToNat? (s : String) : Option Nat :=
  match s.data with
  | [] => none
  | cs => toNatAux cs 0

/-- Parses one numeric field: Go-style, a failure names the field and carries
the offending text. -/
def parseNatField (fieldName s : String) : Except String Nat :=
  match strToNat? s with
  | some n => Except.ok n
  | none => Except.error ("non-numeric " ++ fieldName ++ " field: " ++ s)

/-- Parses the success-flag field of a JTL row. -/
def parseSuccessField (s : String) : Except String Bool :=
  if s = "true" then Except.ok true
  else if s = "false" then Except.ok false
  else Except.error ("invalid success field: " ++ s)

/-- Modelled from the spec: the jtl library's per-row CSV parsing is not in
this repository.  Per §4.1 and §6, a raw row is a sequence of already-split
fields (timestamp, elapsed/ttlb, optional ttfb, label,
response-code-or-error, bytes-sent, bytes-received, success flag); parsing
fails with a human-readable reason on a column-count mismatch or a
non-numeric field, and each row is parsed independently of all others. -/
def parseRow (fields : List String) : Except String Record :=
  match fields with
  | [ts, elapsed, ttfb, label, outcome, sent, received, success] => do
    let tsv ← parseNatField "timestamp" ts
    let ttlbv ← parseNatField "elapsed" elapsed
    let ttfbv ←
      (if ttfb = "" then Except.ok none
       else do
         let v ← parseNatField "time-to-first-byte" ttfb
         Except.ok (some ((v : ℚ))))
    let sentv ← parseNatField "bytes-sent" sent
    let recvv ← parseNatField "bytes-received" received
    let succv ← parseSuccessField success
    Except.ok { timestampMs := tsv, timeToFirstByteMs := ttfbv,
                timeToLastByteMs := (ttlbv : ℚ), routeLabel := label,
                responseOutcome := outcome, requestBodyBytes := sentv,
                responseBytes := recvv, succeeded := succv }
  | other =>
    Except.error ("column-count mismatch: expected 8 fields, got " ++ toString other.length)

/-- Collects the rejected-row diagnostics of the data rows, the first data
row having source line number `startLine`: a row whose parse fails
contributes exactly one diagnostic with its line number and the parse
failure's reason, a row whose parse succeeds contributes nothing. -/
def rejectedAux (startLine : Nat) : List (List String) → List RejectedRow
  | [] => []
  | row :: rest =>
    match parseRow row with
    | Except.error e =>
        { sourceLineNumber := startLine, reason := e } :: rejectedAux (startLine + 1) rest
    | Except.ok _ => rejectedAux (startLine + 1) rest

/-- Modelled from the spec: `jtl.NewDataSourceFromCsv` is in the library, not
in this repository.  Given the data rows of the file (file line 1 is the
header, so the data row at index `i` sits on source line `i + 2`), it
produces the validated records in input order and the rejected-row
diagnostics; per §4.1 and §7(a) a row-level parse failure is recoverable and
never yields a fatal error, so ingestion of an in-memory row sequence always
returns the two sequences. -/
def NewDataSourceFromCsv (dataRows : List (List String)) :
    List Record × List RejectedRow :=
  (dataRows.filterMap (fun row => (parseRow row).toOption), rejectedAux 2 dataRows)

/-- Warning line `LogAnyRowsThatCannotBeProcessed` writes to stderr for one
rejected row (identical in both program variants). -/
def warningLineFor (e : RejectedRow) : String :=
  "[WARNING] ignoring CSV source file line (" ++ toString e.sourceLineNumber ++ "): " ++ e.reason

/-- Embeds `LogAnyRowsThatCannotBeProcessed`: the list of warning lines the
program writes to stderr, one per rejected row, in order. -/
def LogAnyRowsThatCannotBeProcessed (descriptors : List RejectedRow) : List String :=
  descriptors.map warningLineFor

/-- Driver flow of `main` from ingestion to summarization: `none` would mean
the run aborted before reaching summarization.  Rejected rows are only
logged (`LogAnyRowsThatCannotBeProcessed`) and never abort: `DieIfError` is
reached only by the fatal-error return of `NewDataSourceFromCsv`, which per
§4.1/§7(a) is never produced by a row-level parse failure, so the driver
always continues, handing the validated records to the summarizer. -/
def mainIngestAndContinue (dataRows : List (List String)) :
    Option (List String × List Record) :=
  let parsed := NewDataSourceFromCsv dataRows
  some (LogAnyRowsThatCannotBeProcessed parsed.2, parsed.1)

/-- Modelled from the spec: the summarizer's per-group total count
(`NumberOfMatchingRequests`) is the number of the group's records (§4.5). -/
def numberOfMatchingRequests (records : List Record) : Nat :=
  records.length

/-- Modelled from the spec: the summarizer's per-group successful count
(`NumberOfSuccessfulRequests`) is the number of the group's records with
`succeeded == true` (§4.5). -/
def numberOfSuccessfulRequests (records : List Record) : Nat :=
  records.countP (fun r => r.succeeded)

/-- Number of a group's records with `succeeded == false` (§4.5
`failedCount`). -/
def numberOfFailedRecords (records : List Record) : Nat :=
  records.countP (fun r => !r.succeeded)

/-- Flag values accumulated by the Go `flag` package for this program: the
`-o` and `-t` string flags and the `-m` bool flag (the root variant never
registers `-m`, so its value stays `false` there). -/
structure FlagState where
  o : String
  t : String
  m : Bool
  deriving DecidableEq, Repr

/-- Flag values before parsing: Go flag defaults, all empty or false. -/
def initialFlagState : FlagState :=
  { o := "", t := "", m := false }

/-- Kind of a registered flag: `-o`/`-t` take a string value, `-m` is a
boolean flag. -/
inductive GoFlagKind where
  | stringFlag
  | boolFlag
  deriving DecidableEq, Repr

/-- Registered flags: both variants register the `-o` and `-t` string flags;
only the golang variant registers the `-m` bool flag. -/
def flagKindOf (hasMFlag : Bool) (name : String) : Option GoFlagKind :=
  if name = "o" ∨ name = "t" then some GoFlagKind.stringFlag
  else if hasMFlag ∧ name = "m" then some GoFlagKind.boolFlag
  else none

/-- Stores a string flag's parsed value (`name` is `"o"` or `"t"`). -/
def setStringFlag (st : FlagState) (name value : String) : FlagState :=
  if name = "o" then { st with o := value } else { st with t := value }

/-- Boolean literals accepted by Go's `strconv.ParseBool`, used by the flag
package for an explicit `-m=value`. -/
def parseGoBool (s : String) : Option Bool :=
  if s = "1" ∨ s = "t" ∨ s = "T" ∨ s = "true" ∨ s = "TRUE" ∨ s = "True" then some true
  else if s = "0" ∨ s = "f" ∨ s = "F" ∨ s = "false" ∨ s = "FALSE" ∨ s = "False" then some false
  else none

/-- Splits a flag token at its first `=`, Go-style: the name part and,
when an `=` is present, the value part. -/
def splitAtEquals (cs : List Char) : List Char × Option (List Char) :=
  match cs with
  | [] => ([], none)
  | c :: rest =>
    if c = '=' then ([], some rest)
    else
      let (name, val) := splitAtEquals rest
      (c :: name, val)

/-- Model of Go's `flag.Parse` loop (`flag.parseOne`) over an argument
vector, for the flag sets of this program: an argument shorter than two
characters or not starting with `-` terminates parsing and becomes the first
positional argument; a bare `--` terminates parsing and is skipped; a flag
name may carry an inline `=value`; a string flag without an inline value
consumes the following argument — tracked here by the `pending` parameter —
failing when none remains; a bool flag without an inline value is set to
true; an unregistered flag name is an error (Go exits with status 2 under
`ExitOnError`; `-h`/`-help` request help, also terminating the run). -/
def flagParseAux (hasMFlag : Bool) (st : FlagState) (pending : Option String) :
    List String → Except String (FlagState × List String)
  | [] =>
      match pending with
      | some name => Except.error ("flag needs an argument: -" ++ name)
      | none => Except.ok (st, [])
  | arg :: rest =>
      match pending with
      | some name => flagParseAux hasMFlag (setStringFlag st name arg) none rest
      | none =>
        match arg.data with
        | c0 :: c1 :: cs =>
          if c0 = '-' then
            if c1 = '-' ∧ cs = [] then Except.ok (st, rest)
            else
              match (if c1 = '-' then cs else c1 :: cs) with
              | [] => Except.error ("bad flag syntax: " ++ arg)
              | n0 :: ncs =>
                if n0 = '-' ∨ n0 = '=' then Except.error ("bad flag syntax: " ++ arg)
                else
                  let nv := splitAtEquals (n0 :: ncs)
                  let name := String.mk nv.1
                  match flagKindOf hasMFlag name with
                  | none =>
                      if name = "help" ∨ name = "h" then Except.error "flag: help requested"
                      else Except.error ("flag provided but not defined: -" ++ name)
                  | some GoFlagKind.boolFlag =>
                      match nv.2 with
                      | none => flagParseAux hasMFlag { st with m := true } none rest
                      | some v =>
                        match parseGoBool (String.mk v) with
                        | some b => flagParseAux hasMFlag { st with m := b } none rest
                        | none =>
                            Except.error ("invalid boolean value: " ++ String.mk v)
                  | some GoFlagKind.stringFlag =>
                      match nv.2 with
                      | some v =>
                          flagParseAux hasMFlag (setStringFlag st name (String.mk v)) none rest
                      | none => flagParseAux hasMFlag st (some name) rest
          else Except.ok (st, arg :: rest)
        | _ => Except.ok (st, arg :: rest)

/-- Command-line arguments of the root variant `main.go` (no `-m` flag). -/
structure CommandLineArguments where
  PathToJtlSourceCsvFile : String
  PathToSummaryOutputCsvFile : String
  PathToDirectoryForTimestampFiles : String
  deriving DecidableEq, Repr

/-- Command-line arguments of the golang variant `golang/main.go`. -/
structure CommandLineArgumentsGolang where
  PathToJtlSourceCsvFile : String
  PathToSummaryOutputCsvFile : String
  PathToDirectoryForTimestampFiles : String
  IncludeMovingTPSSummary : Bool
  deriving DecidableEq, Repr

/-- Embeds `ProcessCommandLineOptions` of the root `main.go`: registers `-o`
and `-t`, runs `flag.Parse`, and — its positional-argument checks being
commented out — unconditionally takes `flag.Arg(0)` (the empty string when
there is no positional argument) as the source-file path. -/
def ProcessCommandLineOptionsRoot (args : List String) :
    Except String CommandLineArguments :=
  match flagParseAux false initialFlagState none args with
  | Except.error e => Except.error e
  | Except.ok (st, positional) =>
      Except.ok { PathToJtlSourceCsvFile := positional.headD "",
                  PathToSummaryOutputCsvFile := st.o,
                  PathToDirectoryForTimestampFiles := st.t }

/-- Embeds `ProcessCommandLineOptions` of `golang/main.go`: registers `-o`,
`-t` and `-m`, runs `flag.Parse`, rejects an argument vector with zero
positional arguments or with more than one, and otherwise takes the single
positional argument as the source-file path. -/
def ProcessCommandLineOptionsGolang (args : List String) :
    Except String CommandLineArgumentsGolang :=
  match flagParseAux true initialFlagState none args with
  | Except.error e => Except.error e
  | Except.ok (st, positional) =>
      if positional.length = 0 then
        Except.error "the path to the JTL source CSV file is required"
      else if positional.length > 1 then
        Except.error ("expected only one non-flag argument, got (" ++
          toString positional.length ++ ")")
      else
        Except.ok { PathToJtlSourceCsvFile := positional.headD "",
                    PathToSummaryOutputCsvFile := st.o,
                    PathToDirectoryForTimestampFiles := st.t,
                    IncludeMovingTPSSummary := st.m }

/-- Contents the program writes on the success path of
`WriteTimestampFiles` (identical in both variants): `start.ts` receives
`fmt.Sprintf("%d", first / 1000)` and `end.ts` receives
`fmt.Sprintf("%d", last / 1000)`, both computed with Go integer division. -/
def WriteTimestampFilesContents (aggregateStats : AggregateSummary) :
    String × String :=
  (toString (aggregateStats.TimestampOfFirstDataEntryAsUnixEpochMs / 1000),
   toString (aggregateStats.TimestampOfLastDataEntryAsUnixEpochMs / 1000))

/-- Example record list from spec §8's end-to-end scenario: three succeeded
records with timestamps 1000, 1500, 2600 ms and TTLB 10, 20, 30 ms. -/
def exampleRecords : List Record :=
  [{ timestampMs := 1000, timeToFirstByteMs := none, timeToLastByteMs := 10,
     routeLabel := "GET /a", responseOutcome := "200", requestBodyBytes := 0,
     responseBytes := 100, succeeded := true },
   { timestampMs := 1500, timeToFirstByteMs := none, timeToLastByteMs := 20,
     routeLabel := "GET /a", responseOutcome := "200", requestBodyBytes := 0,
     responseBytes := 100, succeeded := true },
   { timestampMs := 2600, timeToFirstByteMs := none, timeToLastByteMs := 30,
     routeLabel := "GET /a", responseOutcome := "200", requestBodyBytes := 0,
     responseBytes := 100, succeeded := false }]

/-- Example raw data rows: the second data row (source line 3 of the file)
has a non-numeric timestamp and cannot be parsed. -/
def exampleCsvRows : List (List String) :=
  [["1000", "10", "", "GET /a", "200", "0", "100", "true"],
   ["oops", "10", "", "GET /a", "200", "0", "100", "true"],
   ["2600", "30", "", "GET /a", "200", "0", "100", "true"]]

/-- Moving TPS header column names appended by `GenerateSummaryOutputText`
when the `-m` flag was given. -/
def movingTPSHeaderNames : List String :=
  ["Moving TPS Mean", "Moving TPS Median", "Moving TPS Stdev",
   "Moving TPS Minimum", "Moving TPS Maximum",
   "Moving TPS 5th Percentile", "Moving TPS 95th Percentile"]

/-- Statistics of the sample multiset {1, 2, 6}: mean 3, median 2 — a group
on which the mean and the median differ. -/
def statsOfOneTwoSix : SummaryStatistics :=
  { Mean := 3, Median := 2, PopulationStandardDeviation := 0,
    Minimum := 1, Maximum := 6,
    ValueAt5thPercentile := 1, ValueAt95thPercentile := 6 }

/-- Per-key summary whose latency statistics come from the sample multiset
{1, 2, 6}, so Mean 3 and Median 2 differ. -/
def exampleSummary : ColumnUniqueValueSummary :=
  { Key := "GET /a", NumberOfMatchingRequests := 3, NumberOfSuccessfulRequests := 3,
    TimeToFirstByteStatistics := statsOfOneTwoSix,
    TimeToLastByteStatistics := statsOfOneTwoSix }

/-- Aggregate summary whose latency statistics come from the sample multiset
{1, 2, 6}, with the overall rate and timestamps of spec §8's scenario. -/
def exampleAggregate : AggregateSummary :=
  { NumberOfMatchingRequests := 3, NumberOfSuccessfulRequests := 3,
    TimeToFirstByteStatistics := statsOfOneTwoSix,
    TimeToLastByteStatistics := statsOfOneTwoSix,
    AverageTPSRate := 15 / 8,
    TimestampOfFirstDataEntryAsUnixEpochMs := 1000,
    TimestampOfLastDataEntryAsUnixEpochMs := 2600 }

/-- Decidable equality for `Except` results, used to evaluate concrete
outcomes of the embedded fallible functions. -/
instance {α β : Type} [DecidableEq α] [DecidableEq β] : DecidableEq (Except α β) :=
  fun x y =>
    match x, y with
    | Except.ok a, Except.ok b =>
        if h : a = b then isTrue (by rw [h]) else isFalse (by simp [h])
    | Except.error a, Except.error b =>
        if h : a = b then isTrue (by rw [h]) else isFalse (by simp [h])
    | Except.ok _, Except.error _ => isFalse (by simp)
    | Except.error _, Except.ok _ => isFalse (by simp)

theorem natMinList_le_start (l : List Nat) : ∀ x, natMinList x l ≤ x := by
  induction l with
  | nil => intro x; exact Nat.le_refl x
  | cons a l ih =>
      intro x
      have h1 : natMinList x (a :: l) = natMinList (Nat.min x a) l := rfl
      rw [h1]
      exact Nat.le_trans (ih (Nat.min x a)) (Nat.min_le_left x a)

theorem natMinList_le_mem (l : List Nat) : ∀ x y, y ∈ l → natMinList x l ≤ y := by
  induction l with
  | nil => intro x y hy; cases hy
  | cons a l ih =>
      intro x y hy
      have h1 : natMinList x (a :: l) = natMinList (Nat.min x a) l := rfl
      rw [h1]
      rcases List.mem_cons.mp hy with h | h
      · subst h; exact Nat.le_trans (natMinList_le_start l _) (Nat.min_le_right x y)
      · exact ih _ y h

theorem natMinList_eq_start_or_mem (l : List Nat) :
    ∀ x, natMinList x l = x ∨ natMinList x l ∈ l := by
  induction l with
  | nil => intro x; exact Or.inl rfl
  | cons a l ih =>
      intro x
      have h1 : natMinList x (a :: l) = natMinList (Nat.min x a) l := rfl
      rw [h1]
      rcases ih (Nat.min x a) with h | h
      · rcases Nat.le_total x a with hxa | hax
        · left
          have h2 : Nat.min x a = x := by show min x a = x; exact min_eq_left hxa
          rw [h, h2]
        · right
          have h2 : Nat.min x a = a := by show min x a = a; exact min_eq_right hax
          rw [h, h2]; exact List.mem_cons_self a l
      · right; exact List.mem_cons_of_mem a h

theorem natMaxList_start_le (l : List Nat) : ∀ x, x ≤ natMaxList x l := by
  induction l with
  | nil => intro x; exact Nat.le_refl x
  | cons a l ih =>
      intro x
      have h1 : natMaxList x (a :: l) = natMaxList (Nat.max x a) l := rfl
      rw [h1]
      exact Nat.le_trans (Nat.le_max_left x a) (ih (Nat.max x a))

theorem natMaxList_mem_le (l : List Nat) : ∀ x y, y ∈ l → y ≤ natMaxList x l := by
  induction l with
  | nil => intro x y hy; cases hy
  | cons a l ih =>
      intro x y hy
      have h1 : natMaxList x (a :: l) = natMaxList (Nat.max x a) l := rfl
      rw [h1]
      rcases List.mem_cons.mp hy with h | h
      · subst h; exact Nat.le_trans (Nat.le_max_right x y) (natMaxList_start_le l _)
      · exact ih _ y h

theorem natMaxList_eq_start_or_mem (l : List Nat) :
    ∀ x, natMaxList x l = x ∨ natMaxList x l ∈ l := by
  induction l with
  | nil => intro x; exact Or.inl rfl
  | cons a l ih =>
      intro x
      have h1 : natMaxList x (a :: l) = natMaxList (Nat.max x a) l := rfl
      rw [h1]
      rcases ih (Nat.max x a) with h | h
      · rcases Nat.le_total x a with hxa | hax
        · right
          have h2 : Nat.max x a = a := by show max x a = a; exact max_eq_right hxa
          rw [h, h2]; exact List.mem_cons_self a l
        · left
          have h2 : Nat.max x a = x := by show max x a = x; exact max_eq_left hax
          rw [h, h2]
      · right; exact List.mem_cons_of_mem a h

theorem minTimestampMs_le {records : List Record} {r : Record} (h : r ∈ records) :
    minTimestampMs records ≤ r.timestampMs := by
  cases records with
  | nil => cases h
  | cons r0 rs =>
      simp only [minTimestampMs]
      rcases List.mem_cons.mp h with h0 | h0
      · subst h0; exact natMinList_le_start _ _
      · exact natMinList_le_mem _ _ _ (List.mem_map_of_mem _ h0)

theorem le_maxTimestampMs {records : List Record} {r : Record} (h : r ∈ records) :
    r.timestampMs ≤ maxTimestampMs records := by
  cases records with
  | nil => cases h
  | cons r0 rs =>
      simp only [maxTimestampMs]
      rcases List.mem_cons.mp h with h0 | h0
      · subst h0; exact natMaxList_start_le _ _
      · exact natMaxList_mem_le _ _ _ (List.mem_map_of_mem _ h0)

theorem minTimestampMs_mem {records : List Record} (h : records ≠ []) :
    ∃ r ∈ records, r.timestampMs = minTimestampMs records := by
  cases records with
  | nil => exact absurd rfl h
  | cons r0 rs =>
      simp only [minTimestampMs]
      rcases natMinList_eq_start_or_mem (rs.map fun x => x.timestampMs) r0.timestampMs
        with h1 | h1
      · exact ⟨r0, List.mem_cons_self _ _, h1.symm⟩
      · rcases List.mem_map.mp h1 with ⟨r, hr, hr2⟩
        exact ⟨r, List.mem_cons_of_mem _ hr, hr2⟩

theorem maxTimestampMs_mem {records : List Record} (h : records ≠ []) :
    ∃ r ∈ records, r.timestampMs = maxTimestampMs records := by
  cases records with
  | nil => exact absurd rfl h
  | cons r0 rs =>
      simp only [maxTimestampMs]
      rcases natMaxList_eq_start_or_mem (rs.map fun x => x.timestampMs) r0.timestampMs
        with h1 | h1
      · exact ⟨r0, List.mem_cons_self _ _, h1.symm⟩
      · rcases List.mem_map.mp h1 with ⟨r, hr, hr2⟩
        exact ⟨r, List.mem_cons_of_mem _ hr, hr2⟩

theorem sum_map_add_nat {α : Type} (l : List α) (f g : α → Nat) :
    (l.map (fun i => f i + g i)).sum = (l.map f).sum + (l.map g).sum := by
  induction l with
  | nil => simp
  | cons a l ih => simp [ih]; omega

theorem indicator_sum (s0 a : Nat) :
    ∀ n, ((List.range n).map (fun i => if a = s0 + i then 1 else 0)).sum =
      if s0 ≤ a ∧ a < s0 + n then 1 else 0 := by
  intro n
  induction n with
  | zero =>
      simp only [List.range_zero, List.map_nil, List.sum_nil, Nat.add_zero]
      rw [if_neg (by omega)]
  | succ n ih =>
      rw [List.range_succ, List.map_append, List.sum_append, ih]
      simp only [List.map_cons, List.map_nil, List.sum_cons, List.sum_nil]
      split_ifs <;> omega

theorem counts_sum (q : Record → Nat) (s0 n : Nat) :
    ∀ l : List Record, (∀ r ∈ l, s0 ≤ q r ∧ q r < s0 + n) →
      ((List.range n).map (fun i => l.countP (fun r => q r == s0 + i))).sum = l.length := by
  intro l
  induction l with
  | nil => intro _; simp
  | cons r l ih =>
      intro h
      have hr := h r (List.mem_cons_self r l)
      have hl : ∀ x ∈ l, s0 ≤ q x ∧ q x < s0 + n :=
        fun x hx => h x (List.mem_cons_of_mem r hx)
      simp only [List.countP_cons]
      have h2 := sum_map_add_nat (List.range n)
        (fun i => l.countP (fun x => q x == s0 + i))
        (fun i => if (q r == s0 + i) = true then 1 else 0)
      rw [h2, ih hl]
      have h3 : (fun i => if (q r == s0 + i) = true then 1 else 0) =
          (fun i => if q r = s0 + i then 1 else 0) := by
        funext i
        simp [beq_iff_eq]
      rw [h3, indicator_sum, if_pos ⟨hr.1, hr.2⟩]
      simp [Nat.add_comm]

theorem bucketOf_in_span {records : List Record} {r : Record} (h : r ∈ records) :
    startSec records ≤ bucketOf r ∧
    bucketOf r < startSec records + (endSec records - startSec records + 1) := by
  have h1 := minTimestampMs_le h
  have h2 := le_maxTimestampMs h
  have h3 : startSec records ≤ bucketOf r := Nat.div_le_div_right h1
  have h4 : bucketOf r ≤ endSec records := Nat.div_le_div_right h2
  omega

/-- C3: for every input with at least two distinct record timestamps, the
overall TPS rate equals the number of valid records divided by
`(lastTimestampMs - firstTimestampMs) / 1000`; when all records share one
timestamp the computation fails with an explicitly signaled condition
instead of silently producing NaN or infinity. -/
theorem c3_overall_rate (records : List Record) :
    ((∃ r1 ∈ records, ∃ r2 ∈ records, r1.timestampMs ≠ r2.timestampMs) →
      overallRate records =
        Except.ok ((records.length : ℚ) /
          (((maxTimestampMs records - minTimestampMs records : Nat) : ℚ) / 1000))) ∧
    (records ≠ [] →
      (∀ r1 ∈ records, ∀ r2 ∈ records, r1.timestampMs = r2.timestampMs) →
      ∃ e, overallRate records = Except.error e) := by
  constructor
  · rintro ⟨r1, h1, r2, h2, hne⟩
    have hmax : ¬ maxTimestampMs records = minTimestampMs records := by
      intro heq
      have a1 := minTimestampMs_le h1
      have b1 := le_maxTimestampMs h1
      have a2 := minTimestampMs_le h2
      have b2 := le_maxTimestampMs h2
      omega
    simp only [overallRate, if_neg hmax]
  · intro hne hall
    rcases minTimestampMs_mem hne with ⟨rmin, hminMem, hmin⟩
    rcases maxTimestampMs_mem hne with ⟨rmax, hmaxMem, hmax⟩
    have hcond : maxTimestampMs records = minTimestampMs records := by
      rw [← hmax, ← hmin]
      exact hall rmax hmaxMem rmin hminMem
    exact ⟨"overall rate undefined: fewer than two distinct timestamps",
      by simp only [overallRate, if_pos hcond]⟩

/-- Witness for C3 at spec §8's scenario (timestamps 1000, 1500, 2600 ms):
the overall rate is 3 / 1.6 = 15/8. -/
theorem c3_overall_rate_witness :
    (∃ r1 ∈ exampleRecords, ∃ r2 ∈ exampleRecords, r1.timestampMs ≠ r2.timestampMs) ∧
    overallRate exampleRecords = Except.ok (15 / 8) := by
  constructor
  · decide
  · have h := (c3_overall_rate exampleRecords).1 (by decide)
    rw [h]
    have h1 : exampleRecords.length = 3 := rfl
    have h2 : maxTimestampMs exampleRecords = 2600 := rfl
    have h3 : minTimestampMs exampleRecords = 1000 := rfl
    rw [h1, h2, h3]
    congr 1
    norm_num

/-- C4: the moving-rate time-bucket series has one count per integer second
from `startSec` to `endSec` inclusive — the count at offset `i` being the
number of records whose timestamp-second is `startSec + i`, seconds with
zero records included — so its length is `endSec - startSec + 1` and its
counts sum to the total number of valid records. -/
theorem c4_time_bucket_series (records : List Record) :
    (timeBucketSeries records).length = endSec records - startSec records + 1 ∧
    (timeBucketSeries records).sum = records.length ∧
    (∀ i, i < endSec records - startSec records + 1 →
      (timeBucketSeries records)[i]? =
        some (records.countP (fun r => bucketOf r == startSec records + i))) := by
  refine ⟨?_, ?_, ?_⟩
  · simp [timeBucketSeries]
  · exact counts_sum bucketOf (startSec records) (endSec records - startSec records + 1)
      records (fun r hr => bucketOf_in_span hr)
  · intro i hi
    simp [timeBucketSeries, hi]

/-- Witness for C4 at spec §8's scenario: seconds 1 and 2 are covered, the
series is the two counts [2, 1], of length 2 = endSec - startSec + 1, and
their sum 3 is the total record count. -/
theorem c4_time_bucket_series_witness :
    (timeBucketSeries exampleRecords).length =
      endSec exampleRecords - startSec exampleRecords + 1 ∧
    (timeBucketSeries exampleRecords).sum = exampleRecords.length ∧
    (timeBucketSeries exampleRecords)[0]? =
      some (exampleRecords.countP
        (fun r => bucketOf r == startSec exampleRecords + 0)) := by
  obtain ⟨h1, h2, h3⟩ := c4_time_bucket_series exampleRecords
  exact ⟨h1, h2, h3 0 (by decide)⟩

/-- C1 fails on the code: at a group whose TTFB and TTLB statistics have
Mean 3 and Median 2 (samples {1, 2, 6}), the cells under the headers
"TTFB Median" (index 5) and "TTLB Median" (index 12) receive the Mean, not
the Median, in the per-key rows and in the aggregate row alike — the Go
code passes `ttfb.Mean` (resp. `ttlb.Mean`) for both the Mean and the
Median column. -/
theorem c1_median_columns_receive_the_mean :
    (HeaderCells false)[5]? = some "TTFB Median" ∧
    (HeaderCells false)[12]? = some "TTLB Median" ∧
    (GenerateSummaryTextForColumnValue exampleSummary "method+uripath" false)[5]? =
      some (Cell.num statsOfOneTwoSix.Mean) ∧
    (GenerateSummaryTextForColumnValue exampleSummary "method+uripath" false)[5]? ≠
      some (Cell.num statsOfOneTwoSix.Median) ∧
    (GenerateSummaryTextForColumnValue exampleSummary "method+uripath" false)[12]? =
      some (Cell.num statsOfOneTwoSix.Mean) ∧
    (GenerateSummaryTextForColumnValue exampleSummary "method+uripath" false)[12]? ≠
      some (Cell.num statsOfOneTwoSix.Median) ∧
    (AggregateRowCells exampleAggregate statsOfOneTwoSix false)[5]? =
      some (Cell.num statsOfOneTwoSix.Mean) ∧
    (AggregateRowCells exampleAggregate statsOfOneTwoSix false)[5]? ≠
      some (Cell.num statsOfOneTwoSix.Median) := by
  decide

/-- C2 fails on the code: `main` precomputes summaries for the RequestURL
column (with or without `-m`) but `GenerateSummaryOutputText` reads
summaries for the distinct ResultLabel column, so that accessor call is for
a dimension precompute was never invoked for and hits the "not computed"
condition; every other accessed column was precomputed. -/
theorem c2_resultlabel_not_precomputed :
    (Dimension.column JtlColumn.ResultLabel ∉ mainPreComputedDimensions true) ∧
    (Dimension.column JtlColumn.ResultLabel ∉ mainPreComputedDimensions false) ∧
    JtlColumn.ResultLabel ∈ mainAccessedColumns ∧
    SummariesForTheColumn (mainPreComputedDimensions true) JtlColumn.ResultLabel =
      Except.error "summaries not computed for the column" ∧
    SummariesForTheColumn (mainPreComputedDimensions false) JtlColumn.ResultLabel =
      Except.error "summaries not computed for the column" ∧
    (mainAccessedColumns.all (fun c =>
      decide (c = JtlColumn.ResultLabel) ||
      decide (SummariesForTheColumn (mainPreComputedDimensions false) c =
        Except.ok ()))) = true := by
  decide

theorem rejectedAux_mem :
    ∀ (rows : List (List String)) (s n : Nat) (e : String),
      (({ sourceLineNumber := n, reason := e } : RejectedRow) ∈ rejectedAux s rows) ↔
      (∃ i row, n = s + i ∧ rows[i]? = some row ∧ parseRow row = Except.error e) := by
  intro rows
  induction rows with
  | nil =>
      intro s n e
      simp [rejectedAux]
  | cons row rest ih =>
      intro s n e
      cases h : parseRow row with
      | error e0 =>
          simp only [rejectedAux, h, List.mem_cons]
          constructor
          · rintro (heq | hmem)
            · injection heq with hn he
              exact ⟨0, row, by omega, List.getElem?_cons_zero, by rw [he]; exact h⟩
            · obtain ⟨i, rj, hi, hget, hp⟩ := (ih (s + 1) n e).mp hmem
              exact ⟨i + 1, rj, by omega, by simpa using hget, hp⟩
          · rintro ⟨i, rj, hi, hget, hp⟩
            cases i with
            | zero =>
                rw [List.getElem?_cons_zero] at hget
                injection hget with hrj
                subst hrj
                rw [h] at hp
                injection hp with he
                left
                have hn : n = s := by omega
                subst hn
                rw [he]
            | succ i =>
                right
                exact (ih (s + 1) n e).mpr ⟨i, rj, by omega, by simpa using hget, hp⟩
      | ok rec =>
          simp only [rejectedAux, h]
          rw [ih (s + 1) n e]
          constructor
          · rintro ⟨i, rj, hi, hget, hp⟩
            exact ⟨i + 1, rj, by omega, by simpa using hget, hp⟩
          · rintro ⟨i, rj, hi, hget, hp⟩
            cases i with
            | zero =>
                rw [List.getElem?_cons_zero] at hget
                injection hget with hrj
                subst hrj
                rw [h] at hp
                cases hp
            | succ i =>
                exact ⟨i, rj, by omega, by simpa using hget, hp⟩

theorem rejectedAux_lines_lower :
    ∀ (rows : List (List String)) (s : Nat) (x : RejectedRow),
      x ∈ rejectedAux s rows → s ≤ x.sourceLineNumber := by
  intro rows
  induction rows with
  | nil => intro s x hx; simp [rejectedAux] at hx
  | cons row rest ih =>
      intro s x hx
      cases h : parseRow row with
      | error e0 =>
          simp only [rejectedAux, h, List.mem_cons] at hx
          rcases hx with heq | hmem
          · subst heq; exact Nat.le_refl s
          · exact Nat.le_trans (by omega) (ih (s + 1) x hmem)
      | ok rec =>
          simp only [rejectedAux, h] at hx
          exact Nat.le_trans (by omega) (ih (s + 1) x hx)

theorem rejectedAux_countP_le_one :
    ∀ (rows : List (List String)) (s n : Nat),
      (rejectedAux s rows).countP (fun x => x.sourceLineNumber == n) ≤ 1 := by
  intro rows
  induction rows with
  | nil => intro s n; simp [rejectedAux]
  | cons row rest ih =>
      intro s n
      cases h : parseRow row with
      | error e0 =>
          simp only [rejectedAux, h, List.countP_cons]
          by_cases hn : s = n
          · have h0 : (rejectedAux (s + 1) rest).countP
                (fun x => x.sourceLineNumber == n) = 0 := by
              rw [List.countP_eq_zero]
              intro a ha
              have hla := rejectedAux_lines_lower rest (s + 1) a ha
              simp only [beq_iff_eq]
              omega
            rw [h0]
            simp [beq_iff_eq, hn]
          · have hle := ih (s + 1) n
            have hif : (if (({ sourceLineNumber := s, reason := e0 } :
                RejectedRow).sourceLineNumber == n) = true then 1 else 0) = 0 := by
              simp [beq_iff_eq, hn]
            rw [hif]
            omega
      | ok rec =>
          simp only [rejectedAux, h]
          exact ih (s + 1) n

/-- C5: a parse failure on the data row at index `i` (source line `i + 2`,
1-based counting the header) yields exactly one rejected-row diagnostic,
carrying that line number and the failure's reason; whether any row is
rejected, and with which diagnostic, depends only on that row itself; and
the driver logs one stderr warning per rejected row and always continues to
summarization with the validated records. -/
theorem c5_rejected_row_diagnostics (dataRows : List (List String)) (i : Nat)
    (row : List String) (reason : String)
    (h1 : dataRows[i]? = some row) (h2 : parseRow row = Except.error reason) :
    (({ sourceLineNumber := i + 2, reason := reason } : RejectedRow) ∈
      (NewDataSourceFromCsv dataRows).2) ∧
    ((NewDataSourceFromCsv dataRows).2.countP
      (fun x => x.sourceLineNumber == i + 2)) = 1 ∧
    (∀ (j : Nat) (rj : List String) (rsn : String), dataRows[j]? = some rj →
      ((({ sourceLineNumber := j + 2, reason := rsn } : RejectedRow) ∈
          (NewDataSourceFromCsv dataRows).2) ↔
        parseRow rj = Except.error rsn)) ∧
    mainIngestAndContinue dataRows =
      some (LogAnyRowsThatCannotBeProcessed (NewDataSourceFromCsv dataRows).2,
            (NewDataSourceFromCsv dataRows).1) ∧
    warningLineFor { sourceLineNumber := i + 2, reason := reason } =
      "[WARNING] ignoring CSV source file line (" ++ toString (i + 2) ++ "): " ++ reason := by
  have hmem : ({ sourceLineNumber := i + 2, reason := reason } : RejectedRow) ∈
      rejectedAux 2 dataRows :=
    (rejectedAux_mem dataRows 2 (i + 2) reason).mpr ⟨i, row, by omega, h1, h2⟩
  refine ⟨hmem, ?_, ?_, rfl, rfl⟩
  · have hle := rejectedAux_countP_le_one dataRows 2 (i + 2)
    have hpos : 0 < (rejectedAux 2 dataRows).countP
        (fun x => x.sourceLineNumber == i + 2) :=
      List.countP_pos_iff.mpr ⟨_, hmem, by simp⟩
    have hgoal : (NewDataSourceFromCsv dataRows).2 = rejectedAux 2 dataRows := rfl
    rw [hgoal]
    omega
  · intro j rj rsn hj
    rw [show (NewDataSourceFromCsv dataRows).2 = rejectedAux 2 dataRows from rfl,
      rejectedAux_mem dataRows 2 (j + 2) rsn]
    constructor
    · rintro ⟨i2, row2, hi2, hget2, hp2⟩
      have hij : i2 = j := by omega
      subst hij
      rw [hj] at hget2
      injection hget2 with hr
      rw [hr]
      exact hp2
    · intro hp
      exact ⟨j, rj, by omega, hj, hp⟩

/-- Witness for C5 at `exampleCsvRows`: its second data row (source line 3)
has a non-numeric timestamp. -/
theorem c5_rejected_row_diagnostics_witness :
    (({ sourceLineNumber := 3, reason := "non-numeric timestamp field: oops" } :
        RejectedRow) ∈ (NewDataSourceFromCsv exampleCsvRows).2) ∧
    ((NewDataSourceFromCsv exampleCsvRows).2.countP
      (fun x => x.sourceLineNumber == 3)) = 1 := by
  have h := c5_rejected_row_diagnostics exampleCsvRows 1
    ["oops", "10", "", "GET /a", "200", "0", "100", "true"]
    "non-numeric timestamp field: oops" (by rfl) (by rfl)
  exact ⟨h.1, h.2.1⟩

theorem succ_count_add_failed_count (records : List Record) :
    numberOfSuccessfulRequests records + numberOfFailedRecords records =
      records.length := by
  simp only [numberOfSuccessfulRequests, numberOfFailedRecords]
  induction records with
  | nil => rfl
  | cons r l ih =>
      simp only [List.countP_cons]
      cases hr : r.succeeded <;> simp [hr] <;> omega

theorem genRow_dash_props (s : ColumnUniqueValueSummary) (label : String) :
    ∀ m : Bool,
      (GenerateSummaryTextForColumnValue s label m)[18]? = some Cell.dash ∧
      (m = true → (GenerateSummaryTextForColumnValue s label m).drop 19 =
        [Cell.dash, Cell.dash, Cell.dash, Cell.dash, Cell.dash, Cell.dash, Cell.dash]) ∧
      (m = false → (GenerateSummaryTextForColumnValue s label m).length = 19) := by
  intro m
  cases m
  · exact ⟨rfl, fun h => Bool.noConfusion h, fun _ => rfl⟩
  · exact ⟨rfl, fun _ => rfl, fun h => Bool.noConfusion h⟩

/-- C6: overall and moving-rate statistics appear only in the aggregate row:
the aggregate row's Overall TPS cell (index 18) carries the numeric
`AverageTPSRate` and, with `-m`, its last seven cells carry the numeric
moving-TPS statistics, while every non-aggregate row of the output carries a
literal dash at index 18 and, with `-m`, dashes in all seven Moving TPS
cells (without `-m` it has no Moving TPS cells at all, its length being
19). -/
theorem c6_rates_only_on_aggregate_row (agg : AggregateSummary)
    (moving : SummaryStatistics)
    (byURL byCode byRespSize byReqSize : List ColumnUniqueValueSummary)
    (m : Bool) :
    (AggregateRowCells agg moving m)[18]? = some (Cell.num agg.AverageTPSRate) ∧
    (AggregateRowCells agg moving true).drop 19 =
      [Cell.num moving.Mean, Cell.num moving.Median,
       Cell.num moving.PopulationStandardDeviation, Cell.num moving.Minimum,
       Cell.num moving.Maximum, Cell.num moving.ValueAt5thPercentile,
       Cell.num moving.ValueAt95thPercentile] ∧
    (∀ row ∈ (GenerateSummaryOutputRows agg moving byURL byCode byRespSize
        byReqSize m).tail,
      row[18]? = some Cell.dash ∧
      (m = true → row.drop 19 =
        [Cell.dash, Cell.dash, Cell.dash, Cell.dash, Cell.dash, Cell.dash, Cell.dash]) ∧
      (m = false → row.length = 19)) := by
  refine ⟨?_, rfl, ?_⟩
  · cases m <;> rfl
  · intro row hrow
    simp only [GenerateSummaryOutputRows, List.tail_cons, List.mem_append,
      List.mem_map] at hrow
    rcases hrow with ((⟨s, _, hs⟩ | ⟨s, _, hs⟩) | ⟨s, _, hs⟩) | ⟨s, _, hs⟩ <;>
      (rw [← hs]; exact genRow_dash_props s _ m)

/-- Witness for C6 at a concrete output with `-m` given. -/
theorem c6_rates_only_on_aggregate_row_witness :
    (AggregateRowCells exampleAggregate statsOfOneTwoSix true)[18]? =
      some (Cell.num exampleAggregate.AverageTPSRate) ∧
    (GenerateSummaryTextForColumnValue exampleSummary "method+uripath" true)[18]? =
      some Cell.dash ∧
    (GenerateSummaryTextForColumnValue exampleSummary "method+uripath" true).drop 19 =
      [Cell.dash, Cell.dash, Cell.dash, Cell.dash, Cell.dash, Cell.dash, Cell.dash] := by
  have h := c6_rates_only_on_aggregate_row exampleAggregate statsOfOneTwoSix
    [exampleSummary] [] [] [] true
  have hrow := h.2.2 (GenerateSummaryTextForColumnValue exampleSummary "method+uripath" true)
    (by simp [GenerateSummaryOutputRows])
  exact ⟨h.1, hrow.1, hrow.2.1 rfl⟩

/-- C7: the moving-rate meta-dimension is processed exactly when `-m` was
given: with `-m` the MovingTransactionsPerSecond meta-column is among the
dimensions passed to precompute and exactly seven Moving TPS columns are
appended to the header (19 becoming 26) and to the aggregate row; without
`-m` the precompute call omits the meta-column, no header column is a
Moving TPS column, and every row has exactly the 19 base cells. -/
theorem c7_moving_tps_iff_m_flag (s : ColumnUniqueValueSummary) (label : String)
    (agg : AggregateSummary) (moving : SummaryStatistics) :
    (Dimension.meta JtlMetaColumn.MovingTransactionsPerSecond ∈
      mainPreComputedDimensions true) ∧
    (Dimension.meta JtlMetaColumn.MovingTransactionsPerSecond ∉
      mainPreComputedDimensions false) ∧
    HeaderCells true = HeaderCells false ++ movingTPSHeaderNames ∧
    movingTPSHeaderNames.length = 7 ∧
    (HeaderCells false).length = 19 ∧
    (HeaderCells true).length = 26 ∧
    ((HeaderCells false).all
      (fun c => decide (c ∉ movingTPSHeaderNames))) = true ∧
    (GenerateSummaryTextForColumnValue s label true).length = 26 ∧
    (GenerateSummaryTextForColumnValue s label false).length = 19 ∧
    (AggregateRowCells agg moving true).length = 26 ∧
    (AggregateRowCells agg moving false).length = 19 := by
  refine ⟨by decide, by decide, by decide, by decide, by decide, by decide,
    by decide, rfl, rfl, rfl, rfl⟩

/-- C8: for every group, the Failed Requests value the program writes (cell
index 3) equals the number of the group's records with `succeeded == false`,
obtained as `NumberOfMatchingRequests - NumberOfSuccessfulRequests` in Go
unsigned arithmetic, well defined because the successful count never exceeds
the total count (which fits in a Go `uint`). -/
theorem c8_failed_requests_count (records : List Record) (key label : String)
    (ttfb ttlb : SummaryStatistics) (m : Bool)
    (h : records.length < 2 ^ 64) :
    goUintSub (numberOfMatchingRequests records) (numberOfSuccessfulRequests records) =
      numberOfFailedRecords records ∧
    (GenerateSummaryTextForColumnValue
        { Key := key, NumberOfMatchingRequests := numberOfMatchingRequests records,
          NumberOfSuccessfulRequests := numberOfSuccessfulRequests records,
          TimeToFirstByteStatistics := ttfb, TimeToLastByteStatistics := ttlb }
        label m)[3]? = some (Cell.nat (numberOfFailedRecords records)) := by
  have hsum := succ_count_add_failed_count records
  have hle : numberOfSuccessfulRequests records ≤ records.length := by omega
  have h1 : goUintSub (numberOfMatchingRequests records)
      (numberOfSuccessfulRequests records) = numberOfFailedRecords records := by
    simp only [goUintSub, numberOfMatchingRequests]
    have h64 : ((2 : Int) ^ 64) = 18446744073709551616 := by norm_num
    rw [h64]
    omega
  refine ⟨h1, ?_⟩
  have h2 : (GenerateSummaryTextForColumnValue
      { Key := key, NumberOfMatchingRequests := numberOfMatchingRequests records,
        NumberOfSuccessfulRequests := numberOfSuccessfulRequests records,
        TimeToFirstByteStatistics := ttfb, TimeToLastByteStatistics := ttlb }
      label m)[3]? = some (Cell.nat (goUintSub (numberOfMatchingRequests records)
        (numberOfSuccessfulRequests records))) := by
    cases m <;> rfl
  rw [h2, h1]

/-- Witness for C8 at spec §8's records (two successes, one failure). -/
theorem c8_failed_requests_count_witness :
    goUintSub (numberOfMatchingRequests exampleRecords)
      (numberOfSuccessfulRequests exampleRecords) =
      numberOfFailedRecords exampleRecords ∧
    numberOfFailedRecords exampleRecords = 1 := by
  have h := c8_failed_requests_count exampleRecords "GET /a" "method+uripath"
    statsOfOneTwoSix statsOfOneTwoSix false (by decide)
  exact ⟨h.1, by decide⟩

theorem flagKindOf_false_some {name : String} {k : GoFlagKind}
    (h : flagKindOf false name = some k) : flagKindOf true name = some k := by
  unfold flagKindOf at h ⊢
  by_cases hn : name = "o" ∨ name = "t"
  · simp only [if_pos hn] at h ⊢
    exact h
  · simp [hn] at h

theorem flagKindOf_false_ne_bool (name : String) :
    flagKindOf false name ≠ some GoFlagKind.boolFlag := by
  unfold flagKindOf
  by_cases hn : name = "o" ∨ name = "t"
  · simp [hn]
  · simp [hn]

theorem setStringFlag_m (st : FlagState) (name value : String) :
    (setStringFlag st name value).m = st.m := by
  unfold setStringFlag
  split <;> rfl

theorem flagParseAux_false_to_true :
    ∀ (args : List String) (pending : Option String) (st st2 : FlagState)
      (pos : List String),
      flagParseAux false st pending args = Except.ok (st2, pos) →
      flagParseAux true st pending args = Except.ok (st2, pos) ∧ st2.m = st.m := by
  intro args
  induction args with
  | nil =>
      intro pending st st2 pos h
      cases pending with
      | some name =>
          simp only [flagParseAux] at h
          cases h
      | none =>
          simp only [flagParseAux] at h ⊢
          injection h with h2
          injection h2 with ha hb
          subst ha; subst hb
          exact ⟨rfl, rfl⟩
  | cons arg rest ih =>
      intro pending st st2 pos h
      cases pending with
      | some name =>
          simp only [flagParseAux] at h ⊢
          obtain ⟨ha, hb⟩ := ih none _ _ _ h
          exact ⟨ha, by rw [hb, setStringFlag_m]⟩
      | none =>
          simp only [flagParseAux] at h ⊢
          cases hd : arg.data with
          | nil =>
              simp only [hd] at h ⊢
              injection h with h2
              injection h2 with ha hb
              subst ha; subst hb
              exact ⟨rfl, rfl⟩
          | cons c0 cs0 =>
              cases cs0 with
              | nil =>
                  simp only [hd] at h ⊢
                  injection h with h2
                  injection h2 with ha hb
                  subst ha; subst hb
                  exact ⟨rfl, rfl⟩
              | cons c1 cs =>
                  simp only [hd] at h ⊢
                  by_cases hc0 : c0 = '-'
                  · simp only [if_pos hc0] at h ⊢
                    by_cases hterm : c1 = '-' ∧ cs = []
                    · simp only [if_pos hterm] at h ⊢
                      injection h with h2
                      injection h2 with ha hb
                      subst ha; subst hb
                      exact ⟨rfl, rfl⟩
                    · simp only [if_neg hterm] at h ⊢
                      cases hnc : (if c1 = '-' then cs else c1 :: cs) with
                      | nil =>
                          simp only [hnc] at h
                          cases h
                      | cons n0 ncs =>
                          simp only [hnc] at h ⊢
                          by_cases hbad : n0 = '-' ∨ n0 = '='
                          · simp only [if_pos hbad] at h
                            cases h
                          · simp only [if_neg hbad] at h ⊢
                            cases hk : flagKindOf false
                                (String.mk (splitAtEquals (n0 :: ncs)).1) with
                            | none =>
                                simp only [hk] at h
                                by_cases hhelp :
                                    String.mk (splitAtEquals (n0 :: ncs)).1 = "help" ∨
                                    String.mk (splitAtEquals (n0 :: ncs)).1 = "h"
                                · simp only [if_pos hhelp] at h
                                  cases h
                                · simp only [if_neg hhelp] at h
                                  cases h
                            | some k =>
                                have hk2 := flagKindOf_false_some hk
                                simp only [hk] at h
                                simp only [hk2]
                                cases k with
                                | boolFlag =>
                                    exact absurd hk (flagKindOf_false_ne_bool _)
                                | stringFlag =>
                                    cases hv : (splitAtEquals (n0 :: ncs)).2 with
                                    | some v =>
                                        simp only [hv] at h ⊢
                                        obtain ⟨ha, hb⟩ := ih none _ _ _ h
                                        exact ⟨ha, by rw [hb, setStringFlag_m]⟩
                                    | none =>
                                        simp only [hv] at h ⊢
                                        exact ih _ _ _ _ h
                  · simp only [if_neg hc0] at h ⊢
                    injection h with h2
                    injection h2 with ha hb
                    subst ha; subst hb
                    exact ⟨rfl, rfl⟩

/-- C9 fails on the code: on the empty argument vector the golang variant's
`ProcessCommandLineOptions` returns an error while the root variant's —
whose positional-argument checks are commented out — succeeds with an empty
source path, so the two variants are not CLI-equivalent and in particular do
not both reject a vector with zero positional arguments. -/
theorem c9_cli_variants_differ_on_empty :
    ProcessCommandLineOptionsRoot [] =
      Except.ok { PathToJtlSourceCsvFile := "", PathToSummaryOutputCsvFile := "",
                  PathToDirectoryForTimestampFiles := "" } ∧
    ProcessCommandLineOptionsGolang [] =
      Except.error "the path to the JTL source CSV file is required" := by
  exact ⟨rfl, rfl⟩

/-- C9 amended: on every argument vector the common flag set {-o, -t}
accepts (hence no `-m`), the root variant always succeeds, taking the first
positional argument — the empty string when there is none — as the source
path; the golang variant succeeds exactly when there is one positional
argument, and then the two agree on the source, output and
timestamp-directory paths (with the moving-TPS flag off). -/
theorem c9_cli_agreement_on_common_vectors (args : List String) (st : FlagState)
    (pos : List String)
    (h : flagParseAux false initialFlagState none args = Except.ok (st, pos)) :
    ProcessCommandLineOptionsRoot args =
      Except.ok { PathToJtlSourceCsvFile := pos.headD "",
                  PathToSummaryOutputCsvFile := st.o,
                  PathToDirectoryForTimestampFiles := st.t } ∧
    (pos.length = 1 →
      ProcessCommandLineOptionsGolang args =
        Except.ok { PathToJtlSourceCsvFile := pos.headD "",
                    PathToSummaryOutputCsvFile := st.o,
                    PathToDirectoryForTimestampFiles := st.t,
                    IncludeMovingTPSSummary := false }) ∧
    (pos.length ≠ 1 → ∃ e, ProcessCommandLineOptionsGolang args = Except.error e) := by
  obtain ⟨ht, hm⟩ := flagParseAux_false_to_true args none initialFlagState st pos h
  have hm0 : st.m = false := hm
  refine ⟨?_, ?_, ?_⟩
  · simp only [ProcessCommandLineOptionsRoot, h]
  · intro h1
    simp only [ProcessCommandLineOptionsGolang, ht]
    rw [if_neg (by omega), if_neg (by omega), hm0]
  · intro h1
    simp only [ProcessCommandLineOptionsGolang, ht]
    by_cases h0 : pos.length = 0
    · rw [if_pos h0]
      exact ⟨_, rfl⟩
    · rw [if_neg h0, if_pos (by omega)]
      exact ⟨_, rfl⟩

/-- Witness for the amended C9 at the vector `-o out.csv file.jtl`: both
variants succeed with source path `file.jtl` and output path `out.csv`. -/
theorem c9_cli_agreement_witness :
    ProcessCommandLineOptionsRoot ["-o", "out.csv", "file.jtl"] =
      Except.ok { PathToJtlSourceCsvFile := "file.jtl",
                  PathToSummaryOutputCsvFile := "out.csv",
                  PathToDirectoryForTimestampFiles := "" } ∧
    ProcessCommandLineOptionsGolang ["-o", "out.csv", "file.jtl"] =
      Except.ok { PathToJtlSourceCsvFile := "file.jtl",
                  PathToSummaryOutputCsvFile := "out.csv",
                  PathToDirectoryForTimestampFiles := "",
                  IncludeMovingTPSSummary := false } := by
  have h := c9_cli_agreement_on_common_vectors ["-o", "out.csv", "file.jtl"]
    { o := "out.csv", t := "", m := false } ["file.jtl"] (by rfl)
  exact ⟨h.1, h.2.1 rfl⟩

/-- C10: on the success path of `WriteTimestampFiles`, `start.ts` contains
exactly the decimal rendering of the first-entry timestamp divided by 1000
with truncating integer division and `end.ts` the same for the last-entry
timestamp; the written second is the floor second — never rounded up — and
the README's example timestamps render as 1665666163 and 1665666762. -/
theorem c10_timestamp_files_floor_seconds (agg : AggregateSummary) :
    WriteTimestampFilesContents agg =
      (Nat.repr (agg.TimestampOfFirstDataEntryAsUnixEpochMs / 1000),
       Nat.repr (agg.TimestampOfLastDataEntryAsUnixEpochMs / 1000)) ∧
    1000 * (agg.TimestampOfFirstDataEntryAsUnixEpochMs / 1000) ≤
      agg.TimestampOfFirstDataEntryAsUnixEpochMs ∧
    agg.TimestampOfFirstDataEntryAsUnixEpochMs <
      1000 * (agg.TimestampOfFirstDataEntryAsUnixEpochMs / 1000 + 1) ∧
    1000 * (agg.TimestampOfLastDataEntryAsUnixEpochMs / 1000) ≤
      agg.TimestampOfLastDataEntryAsUnixEpochMs ∧
    agg.TimestampOfLastDataEntryAsUnixEpochMs <
      1000 * (agg.TimestampOfLastDataEntryAsUnixEpochMs / 1000 + 1) ∧
    WriteTimestampFilesContents
        { NumberOfMatchingRequests := 3, NumberOfSuccessfulRequests := 3,
          TimeToFirstByteStatistics := statsOfOneTwoSix,
          TimeToLastByteStatistics := statsOfOneTwoSix,
          AverageTPSRate := 15 / 8,
          TimestampOfFirstDataEntryAsUnixEpochMs := 1665666163199,
          TimestampOfLastDataEntryAsUnixEpochMs := 1665666762869 } =
      ("1665666163", "1665666762") := by
  refine ⟨rfl, ?_, ?_, ?_, ?_, by decide⟩ <;> omega
